import Mathlib

/-!
Verification of the sampling/differencing core of `src/data/os/openbsd.cc`:
the byte-counter accumulation of `update_net_stats` (32-bit wrap correction,
elapsed-time guard, per-interface store) and the tick-counter utilization
computation of `update_cpu_usage` (u_int64_t differencing, divide-by-zero
guard, per-slot state array).

Modelling conventions:
  - `long long` values (`r`, `t`, `ns->recv`, ...) are `Int`;
  - `u_int64_t` values are `Nat`, with subtraction performed modulo 2^64
    (`sub64`) exactly as C unsigned arithmetic does;
  - `double`/`float` quantities (elapsed time, speeds, the utilization
    fraction) are `Rat`; floating-point rounding is not modelled, so a
    division such as `50 / 200` is exact (as it also is in `float`
    at these magnitudes);
  - kernel inputs (`getifaddrs` entries, `sysctl` tick arrays) are function
    arguments.
-/

/-- `struct net_stat` (declared in `src/data/network/net_stat.h`), restricted
to the fields `update_net_stats` in `openbsd.cc` reads or writes.  `recv`,
`trans`, `last_read_recv`, `last_read_trans` are `long long`; the speeds are
`double`.  The IPv4 address copied from an `AF_INET` sibling entry is a side
effect that never feeds back into the counter logic and is not modelled. -/
structure NetStat where
  up : Nat
  recv : Int
  trans : Int
  last_read_recv : Int
  last_read_trans : Int
  recv_speed : Rat
  trans_speed : Rat
  deriving Repr, DecidableEq

/-- OpenBSD `AF_LINK` (`sys/socket.h`). -/
def AF_LINK : Nat := 18

/-- The literal `4294967295U` = 2^32 - 1 used by the wrap correction. -/
def wrapMax : Int := 4294967295

/-- One `ifaddrs` entry as seen by the loop in `update_net_stats`:
interface name, `ifa_flags & IFF_UP`, `ifa_addr->sa_family`, and the
`if_data` byte counters `ifi_ibytes` / `ifi_obytes`. -/
structure IfEntry where
  name : String
  flag_up : Bool
  family : Nat
  ibytes : Int
  obytes : Int
  deriving Repr, DecidableEq

/-- The body of the `for (ifa = ifap; ...)` loop of `update_net_stats`
(openbsd.cc lines 216-262) acting on one interface's `net_stat` for one
entry, given the already-computed `delta` (elapsed seconds).

If the interface is up: set `ns->up = 1`, remember `last_recv`/`last_trans`,
and unless the entry is the `AF_LINK` one, `continue`.  On the `AF_LINK`
entry, accumulate each byte counter with the 32-bit wrap correction
(`4294967295U - last + new` when the new reading is below the last one),
store the new raw readings, and recompute both speeds from the growth of the
accumulated totals over `delta`.  If the interface is down: only
`ns->up = 0`. -/
def processEntry (ns : NetStat) (flag_up : Bool) (family : Nat)
    (r t : Int) (delta : Rat) : NetStat :=
  if flag_up then
    let ns1 : NetStat := { ns with up := 1 }
    let last_recv := ns1.recv
    let last_trans := ns1.trans
    if family ≠ AF_LINK then ns1
    else
      let recv1 : Int :=
        if r < ns1.last_read_recv then ns1.recv + (wrapMax - ns1.last_read_recv) + r
        else ns1.recv + (r - ns1.last_read_recv)
      let trans1 : Int :=
        if t < ns1.last_read_trans then ns1.trans + (wrapMax - ns1.last_read_trans) + t
        else ns1.trans + (t - ns1.last_read_trans)
      { ns1 with
        recv := recv1
        last_read_recv := r
        trans := trans1
        last_read_trans := t
        recv_speed := ((recv1 - last_recv : Int) : Rat) / delta
        trans_speed := ((trans1 - last_trans : Int) : Rat) / delta }
  else
    { ns with up := 0 }

/-- Modelled from the spec: `get_net_stat` lives in
`src/data/network/net_stat.cc`, which is not part of the sources here; only
its caller in `openbsd.cc` is.  Per the spec's EntityState/UnknownEntity
design, the first observation of an interface name creates fresh state, with
the accumulated totals starting at zero; the state lives in a zero-initialized
static table keyed by interface name.  We model that table as an association
list and fresh state as the all-zero record. -/
def freshNetStat : NetStat :=
  { up := 0, recv := 0, trans := 0, last_read_recv := 0, last_read_trans := 0
    recv_speed := 0, trans_speed := 0 }

/-- Lookup in the interface-name-keyed store, creating fresh state on a miss
(`get_net_stat` semantics, see `freshNetStat`). -/
def storeGet (store : List (String × NetStat)) (name : String) : NetStat :=
  match store.lookup name with
  | some ns => ns
  | none => freshNetStat

/-- Write back one interface's state under its name. -/
def storeSet (store : List (String × NetStat)) (name : String) (ns : NetStat) :
    List (String × NetStat) :=
  match store with
  | [] => [(name, ns)]
  | (k, v) :: rest => if k = name then (name, ns) :: rest else (k, v) :: storeSet rest name ns

/-- `update_net_stats` (openbsd.cc lines 203-265): compute
`delta = current_update_time - last_update_time`; if `delta <= 0.0001`
return with every interface's state untouched; otherwise run the loop body
over the `getifaddrs` entries, each acting on the state registered under its
interface name. -/
def update_net_stats (current_update_time last_update_time : Rat)
    (entries : List IfEntry) (store : List (String × NetStat)) :
    List (String × NetStat) :=
  let delta := current_update_time - last_update_time
  if delta ≤ 1 / 10000 then store
  else
    entries.foldl
      (fun st e =>
        storeSet st e.name
          (processEntry (storeGet st e.name) e.flag_up e.family e.ibytes e.obytes delta))
      store

/-- One per-entry step of a single interface's lifetime: the arguments
`processEntry` receives for it in one `update_net_stats` call. -/
structure NetSample where
  flag_up : Bool
  family : Nat
  r : Int
  t : Int
  delta : Rat
  deriving Repr, DecidableEq

/-- Replay a sequence of per-entry steps on one interface's state. -/
def netRun (ns : NetStat) (samples : List NetSample) : NetStat :=
  samples.foldl (fun s e => processEntry s e.flag_up e.family e.r e.t e.delta) ns

/-- The raw-reading fields hold 32-bit counter values. -/
def rawInRange (ns : NetStat) : Prop :=
  0 ≤ ns.last_read_recv ∧ ns.last_read_recv < 2 ^ 32 ∧
    0 ≤ ns.last_read_trans ∧ ns.last_read_trans < 2 ^ 32

instance (ns : NetStat) : Decidable (rawInRange ns) := by
  unfold rawInRange; infer_instance

/-- A sample's raw byte-counter readings lie in [0, 2^32). -/
def sampleInRange (s : NetSample) : Prop :=
  0 ≤ s.r ∧ s.r < 2 ^ 32 ∧ 0 ≤ s.t ∧ s.t < 2 ^ 32

instance (s : NetSample) : Decidable (sampleInRange s) := by
  unfold sampleInRange; infer_instance

/-- `struct cpu_load` (openbsd.cc line 85): both fields `u_int64_t`. -/
structure CpuLoad where
  old_used : Nat
  old_total : Nat
  deriving Repr, DecidableEq

/-- C `u_int64_t` subtraction `a - b`, i.e. subtraction modulo 2^64. -/
def sub64 (a b : Nat) : Nat :=
  (2 ^ 64 + a % 2 ^ 64 - b % 2 ^ 64) % 2 ^ 64

/-- The per-slot utilization computation of `update_cpu_usage`
(openbsd.cc lines 345-353 for slot 0 and 371-380 for slot n = i + 1):
if `total - old_total` (u_int64_t arithmetic) is nonzero, report
`diff_used / diff_total`, else report `0`; in both cases replace
`old_used`/`old_total` with the new readings.  Returns the new `cpu_load`
record and the fraction stored into `info.cpu_usage`. -/
def updateCpuSlot (cl : CpuLoad) (used total : Nat) : CpuLoad × Rat :=
  if sub64 total cl.old_total ≠ 0 then
    (⟨used, total⟩, (sub64 used cl.old_used : Rat) / (sub64 total cl.old_total : Rat))
  else
    (⟨used, total⟩, 0)

/-- One iteration of the per-slot loop acting on the arrays `cpu_loads` and
`info.cpu_usage`: read slot `n`'s stored state, run `updateCpuSlot` on the
new readings, and write the new state and fraction back to slot `n`. -/
def applyCpuSample (loads : List CpuLoad) (usage : List Rat)
    (n used total : Nat) : List CpuLoad × List Rat :=
  let res := updateCpuSlot (loads.getD n ⟨0, 0⟩) used total
  (loads.set n res.1, usage.set n res.2)

/-- OpenBSD `CP_IDLE` (index of the idle state in a `cp_time` array). -/
def CP_IDLE : Nat := 5

/-- Derivation of `(used, total)` from one `cp_time` array (openbsd.cc lines
341-343 and 365-369): `total` is the mod-2^64 sum of all states and
`used = total - cp_time[CP_IDLE]` in u_int64_t arithmetic. -/
def cpUsedTotal (cp : List Nat) : Nat × Nat :=
  let total := cp.foldl (fun a x => (a + x % 2 ^ 64) % 2 ^ 64) 0
  (sub64 total (cp.getD CP_IDLE 0), total)

/-- `update_cpu_usage` (openbsd.cc lines 340-381) after the sysctl reads:
slot 0 is updated from the aggregate `kern.cp_time` array, then slot `i + 1`
from each per-cpu `kern.cp_time2` array. -/
def update_cpu_usage (loads : List CpuLoad) (usage : List Rat)
    (agg : List Nat) (percpu : List (List Nat)) : List CpuLoad × List Rat :=
  let a := cpUsedTotal agg
  let st0 := applyCpuSample loads usage 0 a.1 a.2
  (percpu.enum).foldl
    (fun st p =>
      let ut := cpUsedTotal p.2
      applyCpuSample st.1 st.2 (p.1 + 1) ut.1 ut.2)
    st0

/-! ## Claims -/

/-- Concrete interface state for witnesses: both raw readings at 4294967290,
about to wrap. -/
def nsNearWrap : NetStat :=
  { up := 1, recv := 20, trans := 30, last_read_recv := 4294967290
    last_read_trans := 4294967290, recv_speed := 0, trans_speed := 0 }

/-- C1: for 32-bit readings, the raw delta `update_net_stats` adds to the
accumulated total is `new - prev` when `new >= prev` and
`(2^32 - 1 - prev) + new` when `new < prev`, independently for the received
and the transmitted counter. -/
theorem C1_wrap_delta (ns : NetStat) (r t : Int) (delta : Rat)
    (hr0 : 0 ≤ r) (hr1 : r < 2 ^ 32) (ht0 : 0 ≤ t) (ht1 : t < 2 ^ 32)
    (hp0 : 0 ≤ ns.last_read_recv) (hp1 : ns.last_read_recv < 2 ^ 32)
    (hq0 : 0 ≤ ns.last_read_trans) (hq1 : ns.last_read_trans < 2 ^ 32) :
    ((processEntry ns true AF_LINK r t delta).recv - ns.recv =
        if ns.last_read_recv ≤ r then r - ns.last_read_recv
        else (2 ^ 32 - 1 - ns.last_read_recv) + r) ∧
      ((processEntry ns true AF_LINK r t delta).trans - ns.trans =
        if ns.last_read_trans ≤ t then t - ns.last_read_trans
        else (2 ^ 32 - 1 - ns.last_read_trans) + t) := by
  simp only [processEntry, wrapMax, if_true, ne_eq, not_true_eq_false, if_false]
  constructor <;> split_ifs <;> omega

/-- C1 witness: `prev = 4294967290`, `new = 5` gives raw delta 10 on both
counters. -/
theorem C1_wrap_delta_check :
    (processEntry nsNearWrap true AF_LINK 5 5 1).recv - nsNearWrap.recv = 10 ∧
      (processEntry nsNearWrap true AF_LINK 5 5 1).trans - nsNearWrap.trans = 10 := by
  have h := C1_wrap_delta nsNearWrap 5 5 1 (by decide) (by decide) (by decide)
    (by decide) (by decide) (by decide) (by decide) (by decide)
  refine ⟨h.1.trans ?_, h.2.trans ?_⟩ <;> norm_num [nsNearWrap]

/-- C2: with a nonzero total-delta (and no counter wrap, as the spec's
monotone-accumulator data model guarantees), the reported fraction is the
exact quotient of used-delta by total-delta; the `float` division of the
source is modelled as exact rational division. -/
theorem C2_fraction (cl : CpuLoad) (used total : Nat)
    (hu : cl.old_used ≤ used) (ht : cl.old_total ≤ total)
    (hu64 : used < 2 ^ 64) (ht64 : total < 2 ^ 64)
    (hne : total ≠ cl.old_total) :
    (updateCpuSlot cl used total).2 =
      ((used - cl.old_used : Nat) : Rat) / ((total - cl.old_total : Nat) : Rat) := by
  have h1 : sub64 used cl.old_used = used - cl.old_used := by
    unfold sub64; omega
  have h2 : sub64 total cl.old_total = total - cl.old_total := by
    unfold sub64; omega
  have h3 : sub64 total cl.old_total ≠ 0 := by omega
  unfold updateCpuSlot
  rw [if_pos h3, h1, h2]

/-- C2 witness: `old_used=100, old_total=1000, new_used=150, new_total=1200`
yields fraction `50 / 200 = 0.25`. -/
theorem C2_fraction_check :
    (updateCpuSlot ⟨100, 1000⟩ 150 1200).2 = 1 / 4 := by
  have h := C2_fraction ⟨100, 1000⟩ 150 1200 (by decide) (by decide)
    (by norm_num) (by norm_num) (by decide)
  rw [h]; norm_num

/-- C4: the per-slot state update is unconditional (`old_used`/`old_total`
always become the new readings, in both branches), and when the new total
equals the stored total the reported fraction is 0. -/
theorem C4_zero_diff (cl : CpuLoad) (used total : Nat) :
    (updateCpuSlot cl used total).1 = ⟨used, total⟩ ∧
      (total = cl.old_total → (updateCpuSlot cl used total).2 = 0) := by
  constructor
  · unfold updateCpuSlot; split_ifs <;> rfl
  · intro h
    have h0 : sub64 total cl.old_total = 0 := by
      unfold sub64; omega
    unfold updateCpuSlot
    rw [if_neg (by simp [h0])]

/-- C4 witness: `old_total = new_total = 500` reports fraction 0 and still
re-baselines the state to `(9, 500)`. -/
theorem C4_zero_diff_check :
    (updateCpuSlot ⟨7, 500⟩ 9 500).1 = ⟨9, 500⟩ ∧
      (updateCpuSlot ⟨7, 500⟩ 9 500).2 = 0 :=
  ⟨(C4_zero_diff ⟨7, 500⟩ 9 500).1, (C4_zero_diff ⟨7, 500⟩ 9 500).2 rfl⟩

/-- C3: when the elapsed time is at or below 0.0001 s, `update_net_stats`
returns before touching anything: every interface's raw readings,
accumulated totals and speeds are exactly as before. -/
theorem C3_degenerate (current_update_time last_update_time : Rat)
    (entries : List IfEntry) (store : List (String × NetStat))
    (h : current_update_time - last_update_time ≤ 1 / 10000) :
    update_net_stats current_update_time last_update_time entries store = store := by
  unfold update_net_stats
  rw [if_pos h]

/-- C3 witness: elapsed time 0.00005 s with a pending up entry leaves the
stored state (including the held speeds) unchanged. -/
theorem C3_degenerate_check :
    update_net_stats (5 / 100000) 0 [⟨"em0", true, 18, 999, 999⟩]
        [("em0", nsNearWrap)] = [("em0", nsNearWrap)] :=
  C3_degenerate (5 / 100000) 0 _ _ (by norm_num)

/-- C5 counterexample: a tick-counter reset (`old_total = 5000`,
`new_total = 10`, with `old_used = 4000`, `new_used = 8`) does NOT report 0:
the u_int64_t subtraction wraps and the division branch is taken. -/
theorem C5_reset_cex :
    (updateCpuSlot ⟨4000, 5000⟩ 8 10).2 ≠ 0 ∧
      (updateCpuSlot ⟨4000, 5000⟩ 8 10).1 = ⟨8, 10⟩ := by
  constructor
  · norm_num [updateCpuSlot, sub64]
  · norm_num [updateCpuSlot, sub64]

/-- C5 (amended): when the new readings drop below the stored ones
(a counter reset), `update_cpu_usage` does not report 0: the u_int64_t
differences wrap modulo 2^64 and the reported fraction is the nonzero value
`(2^64 - (old_used - new_used)) / (2^64 - (old_total - new_total))`; the
state is still re-baselined to the new readings. -/
theorem C5_reset_wraps (cl : CpuLoad) (used total : Nat)
    (hu : used < cl.old_used) (ht : total < cl.old_total)
    (hu64 : cl.old_used < 2 ^ 64) (ht64 : cl.old_total < 2 ^ 64) :
    (updateCpuSlot cl used total).2 =
        ((2 ^ 64 - (cl.old_used - used) : Nat) : Rat) /
          ((2 ^ 64 - (cl.old_total - total) : Nat) : Rat) ∧
      (updateCpuSlot cl used total).2 ≠ 0 ∧
      (updateCpuSlot cl used total).1 = ⟨used, total⟩ := by
  have h1 : sub64 used cl.old_used = 2 ^ 64 - (cl.old_used - used) := by
    unfold sub64; omega
  have h2 : sub64 total cl.old_total = 2 ^ 64 - (cl.old_total - total) := by
    unfold sub64; omega
  have h3 : sub64 total cl.old_total ≠ 0 := by omega
  have h4 : sub64 used cl.old_used ≠ 0 := by omega
  unfold updateCpuSlot
  rw [if_pos h3, h1, h2]
  refine ⟨rfl, ?_, rfl⟩
  rw [← h1, ← h2]
  exact div_ne_zero (by exact_mod_cast h4) (by exact_mod_cast h3)

/-- C5 amended-claim witness: the reset `prev_total = 5000`, `new_total = 10`
(with used counters `4000 → 8`) reports the wrapped nonzero fraction and
re-baselines the state to `(8, 10)`. -/
theorem C5_reset_wraps_check :
    (updateCpuSlot ⟨4000, 5000⟩ 8 10).2 =
        ((2 ^ 64 - 3992 : Nat) : Rat) / ((2 ^ 64 - 4990 : Nat) : Rat) ∧
      (updateCpuSlot ⟨4000, 5000⟩ 8 10).2 ≠ 0 ∧
      (updateCpuSlot ⟨4000, 5000⟩ 8 10).1 = ⟨8, 10⟩ :=
  C5_reset_wraps ⟨4000, 5000⟩ 8 10 (by norm_num) (by norm_num)
    (by norm_num) (by norm_num)

/-- C6 counterexample: after a counter reset the stored fraction can exceed 1
(here `old_used = 100`, `old_total = 2^63`, new readings 0): the wrapped
used-delta is close to 2^64 while the wrapped total-delta is 2^63, so the
fraction is about 2. -/
theorem C6_range_cex : 1 < (updateCpuSlot ⟨100, 2 ^ 63⟩ 0 0).2 := by
  norm_num [updateCpuSlot, sub64]

/-- C6 (amended): whenever the accumulators did not go backwards and the
used-delta does not exceed the total-delta (which holds for componentwise
non-decreasing tick counters, since used = total - idle), the value stored
into `info.cpu_usage` lies in [0, 1]. -/
theorem C6_range (cl : CpuLoad) (used total : Nat)
    (hu : cl.old_used ≤ used) (ht : cl.old_total ≤ total)
    (hd : used - cl.old_used ≤ total - cl.old_total)
    (hu64 : used < 2 ^ 64) (ht64 : total < 2 ^ 64) :
    0 ≤ (updateCpuSlot cl used total).2 ∧ (updateCpuSlot cl used total).2 ≤ 1 := by
  have h1 : sub64 used cl.old_used = used - cl.old_used := by
    unfold sub64; omega
  have h2 : sub64 total cl.old_total = total - cl.old_total := by
    unfold sub64; omega
  unfold updateCpuSlot
  split_ifs with h
  · rw [h1, h2]
    have hpos : (0 : Rat) < ((total - cl.old_total : Nat) : Rat) := by
      have : sub64 total cl.old_total ≠ 0 := h
      rw [h2] at this
      exact_mod_cast Nat.pos_of_ne_zero this
    constructor
    · positivity
    · rw [div_le_one hpos]
      exact_mod_cast hd
  · norm_num

/-- C6 amended-claim witness: the basic sample `(100, 1000) → (150, 1200)`
stays inside [0, 1]. -/
theorem C6_range_check :
    0 ≤ (updateCpuSlot ⟨100, 1000⟩ 150 1200).2 ∧
      (updateCpuSlot ⟨100, 1000⟩ 150 1200).2 ≤ 1 :=
  C6_range ⟨100, 1000⟩ 150 1200 (by norm_num) (by norm_num) (by norm_num)
    (by norm_num) (by norm_num)

/-- C7 counterexample: the very first sample for an interface never seen
before (fresh zero state, raw readings 1000/0, elapsed 1 s) reports the full
raw reading as delta and rate: `recv` becomes 1000 and `recv_speed` 1000,
not 0. -/
theorem C7_first_sample_cex :
    (storeGet (update_net_stats 1 0 [⟨"em0", true, 18, 1000, 0⟩] []) "em0").recv_speed ≠ 0 ∧
      (storeGet (update_net_stats 1 0 [⟨"em0", true, 18, 1000, 0⟩] []) "em0").recv ≠ 0 := by
  refine ⟨?_, ?_⟩ <;>
    norm_num [update_net_stats, storeGet, storeSet, processEntry, freshNetStat,
      List.lookup, AF_LINK, wrapMax]

/-- C7 (amended): a sample for an entity key never initialized creates fresh
state and does not fail, but the first sample's reported delta equals the
full raw counter reading and its rate is reading / elapsed (zero only when
the interface's counters read zero): the accumulator is baselined from
zero, not from the first reading. -/
theorem C7_first_sample (name : String) (r t : Int) (cur last : Rat)
    (hr : 0 ≤ r) (ht : 0 ≤ t) (hd : ¬(cur - last ≤ 1 / 10000)) :
    storeGet (update_net_stats cur last [⟨name, true, AF_LINK, r, t⟩] []) name =
      { up := 1, recv := r, trans := t, last_read_recv := r, last_read_trans := t
        recv_speed := (r : Rat) / (cur - last)
        trans_speed := (t : Rat) / (cur - last) } := by
  unfold update_net_stats
  rw [if_neg hd]
  simp only [List.foldl]
  unfold storeGet storeSet
  simp [List.lookup, processEntry, freshNetStat, not_lt.2 hr, not_lt.2 ht]

/-- C7 amended-claim witness: first sample `r = 1000, t = 0` over 1 s yields
state `(recv, trans) = (1000, 0)` with speeds `(1000, 0)`. -/
theorem C7_first_sample_check :
    storeGet (update_net_stats 1 0 [⟨"em0", true, AF_LINK, 1000, 0⟩] []) "em0" =
      { up := 1, recv := 1000, trans := 0, last_read_recv := 1000, last_read_trans := 0
        recv_speed := 1000, trans_speed := 0 } := by
  have h := C7_first_sample "em0" 1000 0 1 0 (by norm_num) (by norm_num) (by norm_num)
  rw [h]
  norm_num

/-- The loop body preserves the accumulated totals upward and keeps the raw
readings 32-bit, for any entry whose readings are in [0, 2^32). -/
theorem processEntry_mono (ns : NetStat) (b : Bool) (fam : Nat)
    (r t : Int) (d : Rat) (hinv : rawInRange ns)
    (hr0 : 0 ≤ r) (hr1 : r < 2 ^ 32) (ht0 : 0 ≤ t) (ht1 : t < 2 ^ 32) :
    ns.recv ≤ (processEntry ns b fam r t d).recv ∧
      ns.trans ≤ (processEntry ns b fam r t d).trans ∧
      rawInRange (processEntry ns b fam r t d) := by
  obtain ⟨h1, h2, h3, h4⟩ := hinv
  unfold processEntry rawInRange wrapMax
  split_ifs <;> simp_all <;> omega

/-- C8: over any sequence of loop-body steps (any mix of down, non-AF_LINK
and AF_LINK entries across successive `update_net_stats` calls) whose raw
readings lie in [0, 2^32), the accumulated totals `ns->recv` and `ns->trans`
never decrease, starting from any state whose raw readings are 32-bit. -/
theorem C8_accumulated_monotone (ns : NetStat) (samples : List NetSample)
    (hinv : rawInRange ns) (hs : ∀ s ∈ samples, sampleInRange s) :
    ns.recv ≤ (netRun ns samples).recv ∧ ns.trans ≤ (netRun ns samples).trans := by
  induction samples generalizing ns with
  | nil => exact ⟨le_refl _, le_refl _⟩
  | cons s rest ih =>
    obtain ⟨hr0, hr1, ht0, ht1⟩ := hs s (List.mem_cons_self s rest)
    have hstep := processEntry_mono ns s.flag_up s.family s.r s.t s.delta hinv hr0 hr1 ht0 ht1
    have hrest := ih (processEntry ns s.flag_up s.family s.r s.t s.delta) hstep.2.2
      (fun x hx => hs x (List.mem_cons_of_mem s hx))
    exact ⟨le_trans hstep.1 hrest.1, le_trans hstep.2.1 hrest.2⟩

/-- C8 witness: a fresh interface, one normal sample then one wrapping
sample, never decreases the accumulated totals. -/
theorem C8_accumulated_monotone_check :
    rawInRange freshNetStat ∧
      (∀ s ∈ [(⟨true, 18, 4294967290, 7, 1⟩ : NetSample), ⟨true, 18, 5, 9, 1⟩],
        sampleInRange s) ∧
      freshNetStat.recv ≤
        (netRun freshNetStat [⟨true, 18, 4294967290, 7, 1⟩, ⟨true, 18, 5, 9, 1⟩]).recv ∧
      freshNetStat.trans ≤
        (netRun freshNetStat [⟨true, 18, 4294967290, 7, 1⟩, ⟨true, 18, 5, 9, 1⟩]).trans := by
  refine ⟨by decide, by decide, ?_⟩
  exact C8_accumulated_monotone freshNetStat _ (by decide) (by decide)

/-- C9: one iteration of the per-slot loop for slot `n >= 1` writes only
slot `n` of `cpu_loads` and `info.cpu_usage`: slot 0 (the system-wide
aggregate) and every other slot `m ≠ n` keep their stored state and
reported fraction. -/
theorem C9_slot_frame (loads : List CpuLoad) (usage : List Rat)
    (n used total : Nat) (hn : 1 ≤ n) :
    (applyCpuSample loads usage n used total).1[0]? = loads[0]? ∧
      (applyCpuSample loads usage n used total).2[0]? = usage[0]? ∧
      ∀ m, m ≠ n →
        (applyCpuSample loads usage n used total).1[m]? = loads[m]? ∧
          (applyCpuSample loads usage n used total).2[m]? = usage[m]? := by
  unfold applyCpuSample
  refine ⟨List.getElem?_set_ne (by omega), List.getElem?_set_ne (by omega),
    fun m hm => ⟨List.getElem?_set_ne (by omega), List.getElem?_set_ne (by omega)⟩⟩

/-- C9 witness: updating slot 1 of a two-slot store leaves slot 0's stored
state and fraction untouched. -/
theorem C9_slot_frame_check :
    (applyCpuSample [⟨1, 2⟩, ⟨3, 4⟩] [1 / 2, 1 / 3] 1 10 20).1[0]? = some ⟨1, 2⟩ ∧
      (applyCpuSample [⟨1, 2⟩, ⟨3, 4⟩] [1 / 2, 1 / 3] 1 10 20).2[0]? = some (1 / 2) :=
  ⟨((C9_slot_frame [⟨1, 2⟩, ⟨3, 4⟩] [1 / 2, 1 / 3] 1 10 20 (by norm_num)).1).trans rfl,
    ((C9_slot_frame [⟨1, 2⟩, ⟨3, 4⟩] [1 / 2, 1 / 3] 1 10 20 (by norm_num)).2.1).trans rfl⟩

/-- C10: an entry for an interface that is up but whose address family is
not `AF_LINK` only sets the `up` flag to 1; the raw readings, accumulated
totals and speeds are untouched by that entry. -/
theorem C10_non_link_skips (ns : NetStat) (fam : Nat) (r t : Int) (d : Rat)
    (hfam : fam ≠ AF_LINK) :
    (processEntry ns true fam r t d).up = 1 ∧
      (processEntry ns true fam r t d).recv = ns.recv ∧
      (processEntry ns true fam r t d).trans = ns.trans ∧
      (processEntry ns true fam r t d).last_read_recv = ns.last_read_recv ∧
      (processEntry ns true fam r t d).last_read_trans = ns.last_read_trans ∧
      (processEntry ns true fam r t d).recv_speed = ns.recv_speed ∧
      (processEntry ns true fam r t d).trans_speed = ns.trans_speed := by
  simp [processEntry, hfam]

/-- C10 witness: an `AF_INET` (family 2) entry with nonzero readings only
flips `up` to 1 on a near-wrap state. -/
theorem C10_non_link_skips_check :
    (processEntry nsNearWrap true 2 1000 1000 1).up = 1 ∧
      (processEntry nsNearWrap true 2 1000 1000 1).recv = nsNearWrap.recv ∧
      (processEntry nsNearWrap true 2 1000 1000 1).trans = nsNearWrap.trans ∧
      (processEntry nsNearWrap true 2 1000 1000 1).last_read_recv =
        nsNearWrap.last_read_recv ∧
      (processEntry nsNearWrap true 2 1000 1000 1).last_read_trans =
        nsNearWrap.last_read_trans ∧
      (processEntry nsNearWrap true 2 1000 1000 1).recv_speed = nsNearWrap.recv_speed ∧
      (processEntry nsNearWrap true 2 1000 1000 1).trans_speed = nsNearWrap.trans_speed :=
  C10_non_link_skips nsNearWrap 2 1000 1000 1 (by decide)
